import Mathlib

/-!
Verification of `src/floatify.py`, a utility that recursively walks a JSON
document and coerces integer values under the keys
`ip`, `op`, `st`, `fr`, `w`, `h` to floating-point representation, then
rewrites the file in place.

JSON values are shallowly embedded as the inductive type `JVal`, with
float values carried as rationals.  Python's `float()` is modelled at two
levels: `pyFloat` is the idealized exact conversion, on which the purely
structural facts (traversal, idempotence, shape, key-triggering) are
proved — for those, the rounding of wide integers is irrelevant — while
`floatIntRounded`/`pyFloatReal`/`floatifyReal` model `float()` faithfully,
with IEEE-754 binary64 round-half-to-even and the `OverflowError` Python
raises beyond the double range; the magnitude and error-behaviour facts
are proved against the faithful model.  A Python distinction that matters
throughout is that `bool` is a subclass of `int`, so `isinstance(v, int)`
is true for `True`/`False`; the embedding keeps that behaviour in
`isIntLike`.
-/

/-- A JSON value, as produced by Python's `json.load`:
`null`, booleans, integers, floats, strings, arrays and objects.
Objects are association lists of string keys, in insertion order. -/
inductive JVal where
  | jnull : JVal
  | jbool : Bool → JVal
  | jint : Int → JVal
  | jfloat : Rat → JVal
  | jstr : String → JVal
  | jarr : List JVal → JVal
  | jobj : List (String × JVal) → JVal
deriving Repr

/-- The list `['ip', 'op', 'st', 'fr', 'w', 'h']` from line 7 of the source. -/
def targetKeys : List String := ["ip", "op", "st", "fr", "w", "h"]

/-- Python's `isinstance(v, int)`: true for integers AND booleans,
since `bool` is a subclass of `int` in Python. -/
def isIntLike : JVal → Bool
  | JVal.jint _ => true
  | JVal.jbool _ => true
  | _ => false

/-- Idealized model of Python's `float(v)` on a value satisfying
`isinstance(v, int)`: `float(True) = 1.0`, `float(False) = 0.0`, and the
integer case is taken exact — adequate for every integer of at most 53
bits, where the double conversion is exact.  `pyFloatReal` below models
the rounding and the `OverflowError` of the real `float()`; the theorems
about magnitudes and errors use that model. -/
def pyFloat : JVal → JVal
  | JVal.jint n => JVal.jfloat (n : Rat)
  | JVal.jbool b => JVal.jfloat (if b then 1 else 0)
  | v => v

mutual

/-- The recursive transform `floatify` from lines 4-13 of the source,
written as a pure tree rebuild (the Python version mutates in place;
no other holder of the tree exists, so the two agree observationally).
On a dict, each entry `(k, v)` with `k` in the target key set and
`isinstance(v, int)` gets its value replaced by `float(v)`; every other
entry is recursed into.  On a list, every element is recursed into.
Anything else is left alone. -/
def floatify : JVal → JVal
  | JVal.jobj es => JVal.jobj (floatifyObj es)
  | JVal.jarr xs => JVal.jarr (floatifyArr xs)
  | v => v

/-- The `for i in obj:` loop of `floatify` on a list. -/
def floatifyArr : List JVal → List JVal
  | [] => []
  | x :: xs => floatify x :: floatifyArr xs

/-- The `for k, v in obj.items():` loop of `floatify` on a dict. -/
def floatifyObj : List (String × JVal) → List (String × JVal)
  | [] => []
  | (k, v) :: rest =>
    (if targetKeys.contains k && isIntLike v then (k, pyFloat v)
     else (k, floatify v)) :: floatifyObj rest

end

/-- The action of the dict loop on one entry `(k, v)`:
coerce when the key matches and the value is int-like, otherwise recurse. -/
def floatifyEntry : String × JVal → String × JVal
  | (k, v) =>
    if targetKeys.contains k && isIntLike v then (k, pyFloat v)
    else (k, floatify v)

theorem floatifyObj_eq_map (es : List (String × JVal)) :
    floatifyObj es = es.map floatifyEntry := by
  induction es with
  | nil => rfl
  | cons e rest ih => cases e with
    | mk k v => simp [floatifyObj, floatifyEntry, ih]

theorem floatifyArr_get (xs : List JVal) (i : Nat) :
    (floatifyArr xs)[i]? = (xs[i]?).map floatify := by
  induction xs generalizing i with
  | nil => simp [floatifyArr]
  | cons x rest ih =>
    cases i with
    | zero => simp [floatifyArr]
    | succ j => simpa [floatifyArr] using ih j

/-- A path through a JSON document: stop here, descend into the `i`-th
element of an array, or into the value of the `i`-th entry of an object. -/
inductive JPath where
  | here : JPath
  | atArr : Nat → JPath → JPath
  | atObj : Nat → JPath → JPath

/-- Follow a path through a document, returning the value there (if any). -/
def getPath : JVal → JPath → Option JVal
  | v, JPath.here => some v
  | JVal.jarr xs, JPath.atArr i p =>
    match xs[i]? with
    | some x => getPath x p
    | none => none
  | JVal.jobj es, JPath.atObj i p =>
    match es[i]? with
    | some e => getPath e.2 p
    | none => none
  | _, JPath.atArr _ _ => none
  | _, JPath.atObj _ _ => none

theorem getPath_intLike {v : JVal} (h : isIntLike v = true) (p : JPath)
    (es : List (String × JVal)) : getPath v p ≠ some (JVal.jobj es) := by
  cases v <;> simp [isIntLike] at h <;> cases p <;> simp [getPath]

/-- Every object occurrence in the input corresponds, at the same path, to
its entry-wise floatified image in the output: the transform never deletes,
reorders or relocates an object, and coerced entries are never objects. -/
theorem getPath_floatify : ∀ (p : JPath) (d : JVal) (es : List (String × JVal)),
    getPath d p = some (JVal.jobj es) →
    getPath (floatify d) p = some (JVal.jobj (floatifyObj es)) := by
  intro p
  induction p with
  | here =>
    intro d es h
    simp [getPath] at h
    subst h
    simp [getPath, floatify]
  | atArr i q ih =>
    intro d es h
    cases d <;> simp [getPath] at h
    case jarr xs =>
      cases hx : xs[i]? with
      | none => rw [hx] at h; simp at h
      | some x =>
        rw [hx] at h
        simp at h
        have : (floatifyArr xs)[i]? = some (floatify x) := by
          simp [floatifyArr_get, hx]
        simp [floatify, getPath, this]
        exact ih x es h
  | atObj i q ih =>
    intro d es h
    cases d <;> simp [getPath] at h
    case jobj ds =>
      cases hx : ds[i]? with
      | none => rw [hx] at h; simp at h
      | some e =>
        rw [hx] at h
        simp at h
        have hmap : (floatifyObj ds)[i]? = some (floatifyEntry e) := by
          simp [floatifyObj_eq_map, List.getElem?_map, hx]
        cases e with
        | mk k v =>
          by_cases hg : targetKeys.contains k && isIntLike v
          · exact absurd h (getPath_intLike (Bool.and_elim_right hg) q es)
          · have hentry : floatifyEntry (k, v) = (k, floatify v) := by
              simp only [floatifyEntry]
              rw [if_neg hg]
            rw [hentry] at hmap
            simp [floatify, getPath, hmap]
            exact ih v es h


/-- A leaf JSON value: null, boolean, integer, float or string
(anything but an array or an object). -/
def isLeaf : JVal → Bool
  | JVal.jarr _ => false
  | JVal.jobj _ => false
  | _ => true

theorem floatify_leaf : ∀ {v : JVal}, isLeaf v = true → floatify v = v := by
  intro v h
  cases v <;> first | rfl | simp [isLeaf] at h

/-- C2 counterexample: the claim lists booleans among the types left
unchanged under a target key, but Python's `isinstance(False, int)` is
true, so in `{"h": false}` the value is rewritten to `0.0`, which is not
the boolean `false`. -/
theorem C2_counterexample :
    floatify (JVal.jobj [("h", JVal.jbool false)]) =
      JVal.jobj [("h", JVal.jfloat 0)] ∧
    JVal.jfloat 0 ≠ JVal.jbool false :=
  ⟨rfl, fun h => JVal.noConfusion h⟩

/-- C2 (amended): in every object occurring at any depth, an entry whose
key is not a target key, or whose value is neither an integer nor a
boolean, is only traversed: the output holds `floatify` of the value at
the same position (never a coercion), and when the value is a leaf
(string, float, null, or a boolean under a non-target key) it is
unchanged.  (The original claim also protected booleans under target
keys; those are coerced, since Python treats `bool` as an `int`.) -/
theorem C2_non_coerced_entries_traversed (d : JVal) (p : JPath)
    (es : List (String × JVal)) (i : Nat) (k : String) (v : JVal)
    (hocc : getPath d p = some (JVal.jobj es))
    (hentry : es[i]? = some (k, v))
    (hng : ¬(targetKeys.contains k = true ∧ isIntLike v = true)) :
    ∃ es2, getPath (floatify d) p = some (JVal.jobj es2) ∧
      es2[i]? = some (k, floatify v) ∧
      (isLeaf v = true → floatify v = v) := by
  refine ⟨floatifyObj es, getPath_floatify p d es hocc, ?_,
    fun h => floatify_leaf h⟩
  rw [floatifyObj_eq_map, List.getElem?_map, hentry]
  have hg : (targetKeys.contains k && isIntLike v) = false := by
    cases hck : targetKeys.contains k <;> cases hiv : isIntLike v <;>
      simp_all
  show some (floatifyEntry (k, v)) = some (k, floatify v)
  simp only [floatifyEntry]
  rw [if_neg (by rw [hg]; exact Bool.false_ne_true)]

/-- C2 witness: in `{"w": "wide"}` the target key `"w"` holds a string;
the entry is traversed, and the string leaf is unchanged. -/
theorem C2_non_coerced_entries_traversed_witness :
    ∃ es2, getPath (floatify (JVal.jobj [("w", JVal.jstr "wide")]))
        JPath.here = some (JVal.jobj es2) ∧
      es2[0]? = some ("w", floatify (JVal.jstr "wide")) ∧
      (isLeaf (JVal.jstr "wide") = true →
        floatify (JVal.jstr "wide") = JVal.jstr "wide") :=
  C2_non_coerced_entries_traversed
    (JVal.jobj [("w", JVal.jstr "wide")]) JPath.here
    [("w", JVal.jstr "wide")] 0 "w" (JVal.jstr "wide")
    rfl rfl (by simp [isIntLike])

/-- C3 counterexample: the claim says `{"w": true}` is left unchanged,
but Python's `isinstance(True, int)` is true and `float(True) = 1.0`,
so the code produces `{"w": 1.0}`, whose value is not the boolean
`true`. -/
theorem C3_counterexample :
    floatify (JVal.jobj [("w", JVal.jbool true)]) =
      JVal.jobj [("w", JVal.jfloat 1)] ∧
    JVal.jfloat 1 ≠ JVal.jbool true :=
  ⟨rfl, fun h => JVal.noConfusion h⟩

/-- C3 (amended): in every object occurring at any depth, an entry whose
key is a target key and whose value is the boolean `b` is coerced to the
float `1.0` (for `true`) or `0.0` (for `false`), because Python's `bool`
is a subclass of `int`, so `isinstance(v, int)` accepts it and
`float(v)` maps it to `1.0`/`0.0`. -/
theorem C3_target_bool_becomes_float (d : JVal) (p : JPath)
    (es : List (String × JVal)) (i : Nat) (k : String) (b : Bool)
    (hocc : getPath d p = some (JVal.jobj es))
    (hentry : es[i]? = some (k, JVal.jbool b))
    (htarget : targetKeys.contains k = true) :
    ∃ es2, getPath (floatify d) p = some (JVal.jobj es2) ∧
      es2[i]? = some (k, JVal.jfloat (if b then 1 else 0)) := by
  refine ⟨floatifyObj es, getPath_floatify p d es hocc, ?_⟩
  rw [floatifyObj_eq_map, List.getElem?_map, hentry]
  have hc : (targetKeys.contains k && isIntLike (JVal.jbool b)) = true := by
    rw [htarget]; rfl
  show some (floatifyEntry (k, JVal.jbool b)) =
    some (k, JVal.jfloat (if b then 1 else 0))
  simp only [floatifyEntry]
  rw [if_pos hc]
  rfl

/-- C3 witness: `{"w": true}` becomes `{"w": 1.0}`. -/
theorem C3_target_bool_becomes_float_witness :
    ∃ es2, getPath (floatify (JVal.jobj [("w", JVal.jbool true)]))
        JPath.here = some (JVal.jobj es2) ∧
      es2[0]? = some ("w", JVal.jfloat (if true then 1 else 0)) :=
  C3_target_bool_becomes_float
    (JVal.jobj [("w", JVal.jbool true)]) JPath.here
    [("w", JVal.jbool true)] 0 "w" true rfl rfl rfl

theorem isIntLike_pyFloat : ∀ (v : JVal), isIntLike (pyFloat v) = false := by
  intro v
  cases v <;> rfl

theorem floatify_pyFloat : ∀ {v : JVal}, isIntLike v = true →
    floatify (pyFloat v) = pyFloat v := by
  intro v h
  cases v <;> first | rfl | simp [isIntLike] at h

theorem isIntLike_floatify : ∀ (v : JVal),
    isIntLike (floatify v) = isIntLike v := by
  intro v
  cases v <;> rfl

mutual

theorem floatify_idem : (v : JVal) → floatify (floatify v) = floatify v
  | JVal.jnull => rfl
  | JVal.jbool _ => rfl
  | JVal.jint _ => rfl
  | JVal.jfloat _ => rfl
  | JVal.jstr _ => rfl
  | JVal.jarr xs => congrArg JVal.jarr (floatifyArr_idem xs)
  | JVal.jobj es => congrArg JVal.jobj (floatifyObj_idem es)

theorem floatifyArr_idem : (xs : List JVal) →
    floatifyArr (floatifyArr xs) = floatifyArr xs
  | [] => rfl
  | x :: xs => by
    show floatify (floatify x) :: floatifyArr (floatifyArr xs) =
      floatify x :: floatifyArr xs
    rw [floatify_idem x, floatifyArr_idem xs]

theorem floatifyObj_idem : (es : List (String × JVal)) →
    floatifyObj (floatifyObj es) = floatifyObj es
  | [] => rfl
  | (k, v) :: rest => by
    by_cases hg : (targetKeys.contains k && isIntLike v) = true
    · show floatifyObj ((if targetKeys.contains k && isIntLike v
          then (k, pyFloat v) else (k, floatify v)) :: floatifyObj rest) =
        (if targetKeys.contains k && isIntLike v then (k, pyFloat v)
          else (k, floatify v)) :: floatifyObj rest
      rw [if_pos hg]
      have h1 := Bool.and_elim_right hg
      show (if targetKeys.contains k && isIntLike (pyFloat v)
          then (k, pyFloat (pyFloat v)) else (k, floatify (pyFloat v))) ::
          floatifyObj (floatifyObj rest) =
        (k, pyFloat v) :: floatifyObj rest
      rw [isIntLike_pyFloat v, Bool.and_false,
        if_neg Bool.false_ne_true, floatify_pyFloat h1,
        floatifyObj_idem rest]
    · show floatifyObj ((if targetKeys.contains k && isIntLike v
          then (k, pyFloat v) else (k, floatify v)) :: floatifyObj rest) =
        (if targetKeys.contains k && isIntLike v then (k, pyFloat v)
          else (k, floatify v)) :: floatifyObj rest
      rw [if_neg hg]
      show (if targetKeys.contains k && isIntLike (floatify v)
          then (k, pyFloat (floatify v)) else (k, floatify (floatify v))) ::
          floatifyObj (floatifyObj rest) =
        (k, floatify v) :: floatifyObj rest
      rw [isIntLike_floatify v, if_neg hg, floatify_idem v,
        floatifyObj_idem rest]

end

/-- C4: the transform is idempotent: applying `floatify` twice to any
JSON document yields the same document as applying it once (values
already floats are not int-like, so they are never re-converted). -/
theorem C4_floatify_idempotent (d : JVal) :
    floatify (floatify d) = floatify d :=
  floatify_idem d

/-- The structural skeleton of a JSON value: object keys, entry order,
array lengths and nesting are kept; every leaf collapses to `leaf`. -/
inductive JShape where
  | leaf : JShape
  | arr : List JShape → JShape
  | obj : List (String × JShape) → JShape

mutual

/-- The skeleton of a value. -/
def shape : JVal → JShape
  | JVal.jarr xs => JShape.arr (shapeArr xs)
  | JVal.jobj es => JShape.obj (shapeObj es)
  | _ => JShape.leaf

/-- The skeletons of the elements of an array. -/
def shapeArr : List JVal → List JShape
  | [] => []
  | x :: xs => shape x :: shapeArr xs

/-- The keys and value skeletons of the entries of an object. -/
def shapeObj : List (String × JVal) → List (String × JShape)
  | [] => []
  | (k, v) :: rest => (k, shape v) :: shapeObj rest

end

theorem shape_pyFloat : ∀ (v : JVal), shape (pyFloat v) = shape v := by
  intro v
  cases v <;> rfl

mutual

theorem shape_floatify : (v : JVal) → shape (floatify v) = shape v
  | JVal.jnull => rfl
  | JVal.jbool _ => rfl
  | JVal.jint _ => rfl
  | JVal.jfloat _ => rfl
  | JVal.jstr _ => rfl
  | JVal.jarr xs => congrArg JShape.arr (shapeArr_floatify xs)
  | JVal.jobj es => congrArg JShape.obj (shapeObj_floatify es)

theorem shapeArr_floatify : (xs : List JVal) →
    shapeArr (floatifyArr xs) = shapeArr xs
  | [] => rfl
  | x :: xs => by
    show shape (floatify x) :: shapeArr (floatifyArr xs) =
      shape x :: shapeArr xs
    rw [shape_floatify x, shapeArr_floatify xs]

theorem shapeObj_floatify : (es : List (String × JVal)) →
    shapeObj (floatifyObj es) = shapeObj es
  | [] => rfl
  | (k, v) :: rest => by
    by_cases hg : (targetKeys.contains k && isIntLike v) = true
    · show shapeObj ((if targetKeys.contains k && isIntLike v
          then (k, pyFloat v) else (k, floatify v)) :: floatifyObj rest) =
        (k, shape v) :: shapeObj rest
      rw [if_pos hg]
      show (k, shape (pyFloat v)) :: shapeObj (floatifyObj rest) =
        (k, shape v) :: shapeObj rest
      rw [shape_pyFloat v, shapeObj_floatify rest]
    · show shapeObj ((if targetKeys.contains k && isIntLike v
          then (k, pyFloat v) else (k, floatify v)) :: floatifyObj rest) =
        (k, shape v) :: shapeObj rest
      rw [if_neg hg]
      show (k, shape (floatify v)) :: shapeObj (floatifyObj rest) =
        (k, shape v) :: shapeObj rest
      rw [shape_floatify v, shapeObj_floatify rest]

end

/-- C5: the transform preserves structural shape exactly: the skeleton of
the output (object keys in order, array lengths, nesting) equals the
skeleton of the input; only leaf values change, and a coerced leaf stays
a leaf. -/
theorem C5_shape_preserved (d : JVal) : shape (floatify d) = shape d :=
  shape_floatify d

mutual

/-- No object key anywhere in the value is in the target key set
(target-set words may still occur as string values). -/
def noTargetKeys : JVal → Bool
  | JVal.jarr xs => noTargetKeysArr xs
  | JVal.jobj es => noTargetKeysObj es
  | _ => true

/-- `noTargetKeys` over the elements of an array. -/
def noTargetKeysArr : List JVal → Bool
  | [] => true
  | x :: xs => noTargetKeys x && noTargetKeysArr xs

/-- `noTargetKeys` over the entries of an object. -/
def noTargetKeysObj : List (String × JVal) → Bool
  | [] => true
  | (k, v) :: rest =>
    !targetKeys.contains k && noTargetKeys v && noTargetKeysObj rest

end

mutual

theorem floatify_noTarget : (v : JVal) → noTargetKeys v = true →
    floatify v = v
  | JVal.jnull, _ => rfl
  | JVal.jbool _, _ => rfl
  | JVal.jint _, _ => rfl
  | JVal.jfloat _, _ => rfl
  | JVal.jstr _, _ => rfl
  | JVal.jarr xs, h => congrArg JVal.jarr (floatifyArr_noTarget xs h)
  | JVal.jobj es, h => congrArg JVal.jobj (floatifyObj_noTarget es h)

theorem floatifyArr_noTarget : (xs : List JVal) →
    noTargetKeysArr xs = true → floatifyArr xs = xs
  | [], _ => rfl
  | x :: xs, h => by
    have h1 : noTargetKeys x = true := Bool.and_elim_left h
    have h2 : noTargetKeysArr xs = true := Bool.and_elim_right h
    show floatify x :: floatifyArr xs = x :: xs
    rw [floatify_noTarget x h1, floatifyArr_noTarget xs h2]

theorem floatifyObj_noTarget : (es : List (String × JVal)) →
    noTargetKeysObj es = true → floatifyObj es = es
  | [], _ => rfl
  | (k, v) :: rest, h => by
    have hk : (!targetKeys.contains k) = true :=
      Bool.and_elim_left (Bool.and_elim_left h)
    have hv : noTargetKeys v = true :=
      Bool.and_elim_right (Bool.and_elim_left h)
    have hr : noTargetKeysObj rest = true := Bool.and_elim_right h
    show (if targetKeys.contains k && isIntLike v then (k, pyFloat v)
        else (k, floatify v)) :: floatifyObj rest = (k, v) :: rest
    have hg : (targetKeys.contains k && isIntLike v) = false := by
      rw [Bool.not_eq_true' ] at hk
      rw [hk, Bool.false_and]
    rw [if_neg (by rw [hg]; exact Bool.false_ne_true)]
    rw [floatify_noTarget v hv, floatifyObj_noTarget rest hr]

end

/-- C8: conversion is triggered only by an object's own key name, never by
value content: if no object key anywhere in the document is in the target
set (target words may still occur as string values, as in
`{"name": "op"}`), the output equals the input unchanged. -/
theorem C8_conversion_keyed_on_key_name (d : JVal)
    (h : noTargetKeys d = true) : floatify d = d :=
  floatify_noTarget d h

/-- C8 witness: scenario 4, `{"name": "op"}` is unchanged: the target
word `op` occurs only as a string value, not as a key. -/
theorem C8_conversion_keyed_on_key_name_witness :
    floatify (JVal.jobj [("name", JVal.jstr "op")]) =
      JVal.jobj [("name", JVal.jstr "op")] :=
  C8_conversion_keyed_on_key_name (JVal.jobj [("name", JVal.jstr "op")]) rfl


/-- The command line and filesystem visible to one run of the script:
`argv` models Python's `sys.argv` (element 0 is the script name), `fs`
maps each path to the contents of the file there (`none` meaning no
readable file), and `writable` tells whether opening a path for writing
would succeed. -/
structure PyWorld where
  argv : List String
  fs : String → Option String
  writable : String → Bool

/-- What one run leaves behind: the lines printed to standard output, the
resulting filesystem, and the process exit code. -/
structure RunResult where
  printed : List String
  fs : String → Option String
  exitCode : Nat

/-- The module-level driver, lines 15-25 of the source: read the file
named by `sys.argv[1]`, parse it as JSON, apply `floatify`, reopen the
same path for writing and dump the result, then print a confirmation.
Every failure along the way (`IndexError` for a missing argument,
`IOError` for an unreadable or unwritable file, a JSON decode error) is
raised inside the single `try` block and caught by its
`except Exception as e: print(e)` handler.  The script never calls
`sys.exit`, so the interpreter exits with code 0 on every path.
`parse` and `dump` stand for `json.load` and `json.dump(..., indent=4)`
of Python's standard json library, external collaborators of the script;
the literal strings stand for the textual descriptions of the
exceptions, whose exact wording the runtime supplies. -/
def runScript (parse : String → Option JVal) (dump : JVal → String)
    (w : PyWorld) : RunResult :=
  match w.argv[1]? with
  | none =>
    { printed := ["list index out of range"], fs := w.fs, exitCode := 0 }
  | some path =>
    match w.fs path with
    | none =>
      { printed := ["[Errno 2] No such file or directory: " ++ path],
        fs := w.fs, exitCode := 0 }
    | some contents =>
      match parse contents with
      | none =>
        { printed := ["Expecting value: line 1 column 1 (char 0)"],
          fs := w.fs, exitCode := 0 }
      | some data =>
        if w.writable path then
          { printed := ["Processed " ++ path],
            fs := fun q => if q = path then some (dump (floatify data))
              else w.fs q,
            exitCode := 0 }
        else
          { printed := ["[Errno 13] Permission denied: " ++ path],
            fs := w.fs, exitCode := 0 }

/-- C6: on every run — success, missing argument, unreadable file,
invalid JSON or write failure — the single top-level handler catches any
failure, exactly one line is printed (the confirmation or the error's
description), and the process exits with code 0, the same status as a
successful run; no error propagates out. -/
theorem C6_all_failures_caught_exit_zero (parse : String → Option JVal)
    (dump : JVal → String) (w : PyWorld) :
    (runScript parse dump w).exitCode = 0 ∧
    (runScript parse dump w).printed.length = 1 := by
  rcases h1 : w.argv[1]? with _ | path
  · simp [runScript, h1]
  · rcases h2 : w.fs path with _ | contents
    · simp [runScript, h1, h2]
    · rcases h3 : parse contents with _ | data
      · simp [runScript, h1, h2, h3]
      · by_cases h4 : w.writable path <;> simp [runScript, h1, h2, h3, h4]

/-- C7: when the path named by `sys.argv[1]` has no readable file, the
run prints the error description and the filesystem is untouched: the
read open fails before any write open is attempted, so no file is
created or modified. -/
theorem C7_missing_file_reported_no_write (parse : String → Option JVal)
    (dump : JVal → String) (w : PyWorld) (path : String)
    (harg : w.argv[1]? = some path) (hfs : w.fs path = none) :
    (runScript parse dump w).fs = w.fs ∧
    (runScript parse dump w).printed =
      ["[Errno 2] No such file or directory: " ++ path] := by
  simp [runScript, harg, hfs]

/-- C7 witness: scenario 5, a run on path `missing.json` over an empty
filesystem leaves the filesystem untouched and prints the error. -/
theorem C7_missing_file_reported_no_write_witness :
    (runScript (fun _ => none) (fun _ => "")
      ⟨["floatify.py", "missing.json"], fun _ => none, fun _ => true⟩).fs =
      (fun _ => none) ∧
    (runScript (fun _ => none) (fun _ => "")
      ⟨["floatify.py", "missing.json"], fun _ => none, fun _ => true⟩).printed =
      ["[Errno 2] No such file or directory: " ++ "missing.json"] :=
  C7_missing_file_reported_no_write (fun _ => none) (fun _ => "")
    ⟨["floatify.py", "missing.json"], fun _ => none, fun _ => true⟩
    "missing.json" rfl rfl

/-- C9: when the file exists and is readable but its contents do not
parse as JSON, the run prints the parse error and the filesystem —
including the file's own contents — is byte-for-byte unchanged: the
truncating write open is only reached after parsing succeeds. -/
theorem C9_bad_json_reported_file_unchanged (parse : String → Option JVal)
    (dump : JVal → String) (w : PyWorld) (path contents : String)
    (harg : w.argv[1]? = some path) (hfs : w.fs path = some contents)
    (hparse : parse contents = none) :
    (runScript parse dump w).fs = w.fs ∧
    (runScript parse dump w).fs path = some contents ∧
    (runScript parse dump w).printed =
      ["Expecting value: line 1 column 1 (char 0)"] := by
  refine ⟨?_, ?_, ?_⟩ <;> simp [runScript, harg, hfs, hparse]

/-- C9 witness: a run on a file holding `not json`, with a parser that
rejects everything, leaves the file's contents unchanged and prints the
parse error. -/
theorem C9_bad_json_reported_file_unchanged_witness :
    (runScript (fun _ => none) (fun _ => "")
      ⟨["floatify.py", "bad.json"], fun _ => some "not json",
        fun _ => true⟩).fs =
      (fun _ => some "not json") ∧
    (runScript (fun _ => none) (fun _ => "")
      ⟨["floatify.py", "bad.json"], fun _ => some "not json",
        fun _ => true⟩).fs "bad.json" = some "not json" ∧
    (runScript (fun _ => none) (fun _ => "")
      ⟨["floatify.py", "bad.json"], fun _ => some "not json",
        fun _ => true⟩).printed =
      ["Expecting value: line 1 column 1 (char 0)"] :=
  C9_bad_json_reported_file_unchanged (fun _ => none) (fun _ => "")
    ⟨["floatify.py", "bad.json"], fun _ => some "not json", fun _ => true⟩
    "bad.json" "not json" rfl rfl rfl

/-- Number of binary digits of `n` (`0` for `0`), with explicit fuel so the
halving loop is structurally recursive and concrete instances reduce in
the kernel; `n` itself always suffices as fuel. -/
def bitLenAux : Nat → Nat → Nat
  | 0, _ => 0
  | fuel + 1, n => if n = 0 then 0 else bitLenAux fuel (n / 2) + 1

/-- Number of binary digits of `n` (`0` for `0`). -/
def bitLen (n : Nat) : Nat := bitLenAux n n

/-- Python's `float(n)` on an integer, modelled faithfully: the result is
the nearest IEEE-754 binary64 value (round half to even on a 53-bit
significand) — always itself an integer for integer input — or `none`
for the `OverflowError` CPython raises when the rounded magnitude reaches
`2^1024`.  Magnitudes of at most 53 bits convert exactly. -/
def floatIntRounded (n : Int) : Option Int :=
  let a := n.natAbs
  if a < 2 ^ 53 then some n
  else
    let s := bitLen a - 53
    let q := a / 2 ^ s
    let r := a % 2 ^ s
    let half := 2 ^ (s - 1)
    let q2 := if half < r ∨ (r = half ∧ q % 2 = 1) then q + 1 else q
    let v := q2 * 2 ^ s
    if 2 ^ 1024 ≤ v then none
    else if n < 0 then some (-(v : Int)) else some ((v : Nat) : Int)

/-- Python's `float(v)` on a value passing `isinstance(v, int)`, with
rounding and overflow modelled: booleans give exactly `1.0`/`0.0`;
integers round to the nearest double, or raise `OverflowError` (`none`)
beyond the double range. -/
def pyFloatReal : JVal → Option JVal
  | JVal.jint n => Option.map (fun m => JVal.jfloat (m : Rat)) (floatIntRounded n)
  | JVal.jbool b => some (JVal.jfloat (if b then 1 else 0))
  | v => some v

mutual

/-- The transform of lines 4-13 of the source with Python's `float()`
modelled faithfully: the traversal and branch structure are those of
`floatify`, but the coercion can fail, and a failure anywhere aborts the
whole transform (in the source the `OverflowError` propagates out of the
recursion to the driver's top-level handler, so nothing is written). -/
def floatifyReal : JVal → Option JVal
  | JVal.jobj es => Option.map JVal.jobj (floatifyRealObj es)
  | JVal.jarr xs => Option.map JVal.jarr (floatifyRealArr xs)
  | v => some v

/-- `floatifyReal` over the elements of a list. -/
def floatifyRealArr : List JVal → Option (List JVal)
  | [] => some []
  | x :: xs =>
    match floatifyReal x, floatifyRealArr xs with
    | some y, some ys => some (y :: ys)
    | _, _ => none

/-- `floatifyReal` over the entries of a dict. -/
def floatifyRealObj : List (String × JVal) → Option (List (String × JVal))
  | [] => some []
  | (k, v) :: rest =>
    match (if targetKeys.contains k && isIntLike v then pyFloatReal v
           else floatifyReal v), floatifyRealObj rest with
    | some y, some ys => some ((k, y) :: ys)
    | _, _ => none

end

set_option maxRecDepth 100000 in
/-- `float()` is exact on every integer of magnitude at most `2^53`. -/
theorem floatIntRounded_exact {n : Int} (h : n.natAbs ≤ 2 ^ 53) :
    floatIntRounded n = some n := by
  rcases Nat.lt_or_eq_of_le h with hlt | ha
  · simp only [floatIntRounded]
    rw [if_pos hlt]
  · rcases Int.natAbs_eq n with h1 | h1 <;> rw [ha] at h1 <;> subst h1 <;>
      decide


/-- When the faithful transform succeeds on a list, it succeeds on every
element, positionally. -/
theorem floatifyRealArr_get : ∀ (xs ys : List JVal),
    floatifyRealArr xs = some ys → ∀ (i : Nat) (x : JVal),
    xs[i]? = some x → ∃ y, floatifyReal x = some y ∧ ys[i]? = some y := by
  intro xs
  induction xs with
  | nil => intro ys h i x hx; simp at hx
  | cons a rest ih =>
    intro ys h i x hx
    cases hy : floatifyReal a with
    | none => unfold floatifyRealArr at h; rw [hy] at h; simp at h
    | some y0 =>
      cases hys : floatifyRealArr rest with
      | none => unfold floatifyRealArr at h; rw [hy, hys] at h; simp at h
      | some ys0 =>
        unfold floatifyRealArr at h
        rw [hy, hys] at h
        simp at h
        subst h
        cases i with
        | zero =>
          simp at hx
          subst hx
          exact ⟨y0, hy, by simp⟩
        | succ j =>
          simp at hx
          obtain ⟨y, h1, h2⟩ := ih ys0 hys j x hx
          exact ⟨y, h1, by simpa using h2⟩

/-- When the faithful transform succeeds on a dict, every entry's
coercion-or-recursion succeeded, positionally and keeping the key. -/
theorem floatifyRealObj_get : ∀ (es es2 : List (String × JVal)),
    floatifyRealObj es = some es2 → ∀ (i : Nat) (k : String) (v : JVal),
    es[i]? = some (k, v) →
    ∃ y, (if targetKeys.contains k && isIntLike v then pyFloatReal v
          else floatifyReal v) = some y ∧ es2[i]? = some (k, y) := by
  intro es
  induction es with
  | nil => intro es2 h i k v hx; simp at hx
  | cons e rest ih =>
    intro es2 h i k v hx
    cases e with
    | mk k0 v0 =>
      cases hy : (if targetKeys.contains k0 && isIntLike v0
          then pyFloatReal v0 else floatifyReal v0) with
      | none => unfold floatifyRealObj at h; rw [hy] at h; simp at h
      | some y0 =>
        cases hys : floatifyRealObj rest with
        | none => unfold floatifyRealObj at h; rw [hy, hys] at h; simp at h
        | some ys0 =>
          unfold floatifyRealObj at h
          rw [hy, hys] at h
          simp at h
          subst h
          cases i with
          | zero =>
            simp at hx
            obtain ⟨hk, hv⟩ := hx
            subst hk
            subst hv
            exact ⟨y0, hy, by simp⟩
          | succ j =>
            simp at hx
            obtain ⟨y, h1, h2⟩ := ih ys0 hys j k v hx
            exact ⟨y, h1, by simpa using h2⟩

/-- When the faithful transform succeeds, every object occurrence of the
input corresponds, at the same path, to the successful entry-wise
transform of that object in the output. -/
theorem getPath_floatifyReal : ∀ (p : JPath) (d d2 : JVal)
    (es : List (String × JVal)), getPath d p = some (JVal.jobj es) →
    floatifyReal d = some d2 →
    ∃ es2, floatifyRealObj es = some es2 ∧
      getPath d2 p = some (JVal.jobj es2) := by
  intro p
  induction p with
  | here =>
    intro d d2 es h hrun
    simp [getPath] at h
    subst h
    unfold floatifyReal at hrun
    cases hes : floatifyRealObj es with
    | none => rw [hes] at hrun; simp at hrun
    | some es2 =>
      rw [hes] at hrun
      simp at hrun
      subst hrun
      exact ⟨es2, rfl, rfl⟩
  | atArr i q ih =>
    intro d d2 es h hrun
    cases d <;> simp [getPath] at h
    case jarr xs =>
      cases hx : xs[i]? with
      | none => rw [hx] at h; simp at h
      | some x =>
        rw [hx] at h
        simp at h
        unfold floatifyReal at hrun
        cases hys : floatifyRealArr xs with
        | none => rw [hys] at hrun; simp at hrun
        | some ys =>
          rw [hys] at hrun
          simp at hrun
          subst hrun
          obtain ⟨y, hy1, hy2⟩ := floatifyRealArr_get xs ys hys i x hx
          obtain ⟨es2, h1, h2⟩ := ih x y es h hy1
          exact ⟨es2, h1, by simp [getPath, hy2]; exact h2⟩
  | atObj i q ih =>
    intro d d2 es h hrun
    cases d <;> simp [getPath] at h
    case jobj ds =>
      cases hx : ds[i]? with
      | none => rw [hx] at h; simp at h
      | some e =>
        rw [hx] at h
        simp at h
        unfold floatifyReal at hrun
        cases hds : floatifyRealObj ds with
        | none => rw [hds] at hrun; simp at hrun
        | some es3 =>
          rw [hds] at hrun
          simp at hrun
          subst hrun
          cases e with
          | mk k v =>
            obtain ⟨y, hy1, hy2⟩ := floatifyRealObj_get ds es3 hds i k v hx
            by_cases hg : (targetKeys.contains k && isIntLike v) = true
            · exact absurd h (getPath_intLike (Bool.and_elim_right hg) q es)
            · rw [if_neg hg] at hy1
              obtain ⟨es2, h1, h2⟩ := ih v y es h hy1
              exact ⟨es2, h1, by simp [getPath, hy2]; exact h2⟩

set_option maxRecDepth 100000 in
/-- C1 counterexample: the claim quantifies over every integer, but
Python's `float()` rounds to the nearest double: on `{"w": 2^53 + 1}` the
program writes the float `2^53`, a different numeric magnitude than the
input integer `2^53 + 1`. -/
theorem C1_counterexample :
    floatifyReal (JVal.jobj [("w", JVal.jint 9007199254740993)]) =
      some (JVal.jobj [("w",
        JVal.jfloat ((9007199254740992 : Int) : Rat))]) ∧
    ((9007199254740992 : Int) : Rat) ≠ ((9007199254740993 : Int) : Rat) := by
  constructor
  · rfl
  · intro h
    have := Rat.intCast_injective h
    simp at this

/-- C1 (amended): for every JSON document and every object occurring at
any depth in it (at any path), every entry whose key is in the target set
`{ip, op, st, fr, w, h}` and whose value is an integer `n` of magnitude
at most `2^53` — the range where a double conversion is exact — is
mapped, whenever the transform completes (integers beyond the double
range elsewhere in the document make `float()` raise `OverflowError`
instead), at the same path and entry position of the output, to the float
of the same numeric magnitude `n`.  Above `2^53` the magnitude can change
by rounding, and beyond the double range the transform fails. -/
theorem C1_small_target_int_becomes_float (d d2 : JVal) (p : JPath)
    (es : List (String × JVal)) (i : Nat) (k : String) (n : Int)
    (hocc : getPath d p = some (JVal.jobj es))
    (hentry : es[i]? = some (k, JVal.jint n))
    (htarget : targetKeys.contains k = true)
    (hsmall : n.natAbs ≤ 2 ^ 53)
    (hrun : floatifyReal d = some d2) :
    ∃ es2, getPath d2 p = some (JVal.jobj es2) ∧
      es2[i]? = some (k, JVal.jfloat (n : Rat)) := by
  obtain ⟨es2, h1, h2⟩ := getPath_floatifyReal p d d2 es hocc hrun
  obtain ⟨y, hy1, hy2⟩ := floatifyRealObj_get es es2 h1 i k (JVal.jint n)
    hentry
  have hg : (targetKeys.contains k && isIntLike (JVal.jint n)) = true := by
    rw [htarget]; rfl
  rw [if_pos hg] at hy1
  have hpf : pyFloatReal (JVal.jint n) = some (JVal.jfloat (n : Rat)) := by
    show Option.map (fun m => JVal.jfloat (m : Rat)) (floatIntRounded n) = _
    rw [floatIntRounded_exact hsmall]
    rfl
  rw [hpf] at hy1
  injection hy1 with hy1
  subst hy1
  exact ⟨es2, h2, hy2⟩

/-- C1 witness: scenario 1, the document
`{"ip": 0, "op": 100, "fr": 30, "w": 1920, "h": 1080}` transforms
successfully, and at the root path its entry 0 (`"ip"`) becomes `0.0`. -/
theorem C1_small_target_int_becomes_float_witness :
    Int.natAbs 0 ≤ 2 ^ 53 ∧
    ∃ es2, getPath (JVal.jobj [("ip", JVal.jfloat ((0 : Int) : Rat)),
        ("op", JVal.jfloat ((100 : Int) : Rat)),
        ("fr", JVal.jfloat ((30 : Int) : Rat)),
        ("w", JVal.jfloat ((1920 : Int) : Rat)),
        ("h", JVal.jfloat ((1080 : Int) : Rat))]) JPath.here =
      some (JVal.jobj es2) ∧
      es2[0]? = some ("ip", JVal.jfloat ((0 : Int) : Rat)) :=
  ⟨by decide,
    C1_small_target_int_becomes_float
      (JVal.jobj [("ip", JVal.jint 0), ("op", JVal.jint 100),
        ("fr", JVal.jint 30), ("w", JVal.jint 1920), ("h", JVal.jint 1080)])
      (JVal.jobj [("ip", JVal.jfloat ((0 : Int) : Rat)),
        ("op", JVal.jfloat ((100 : Int) : Rat)),
        ("fr", JVal.jfloat ((30 : Int) : Rat)),
        ("w", JVal.jfloat ((1920 : Int) : Rat)),
        ("h", JVal.jfloat ((1080 : Int) : Rat))])
      JPath.here
      [("ip", JVal.jint 0), ("op", JVal.jint 100), ("fr", JVal.jint 30),
        ("w", JVal.jint 1920), ("h", JVal.jint 1080)]
      0 "ip" 0 rfl rfl rfl (by decide) rfl⟩

mutual

/-- Every coercion the transform would perform on this value succeeds:
each target-keyed int-like entry converts to a double without
`OverflowError`.  (Boolean coercions always succeed; integer ones fail
exactly beyond the double range.) -/
def coercible : JVal → Bool
  | JVal.jobj es => coercibleObj es
  | JVal.jarr xs => coercibleArr xs
  | _ => true

/-- `coercible` over the elements of a list. -/
def coercibleArr : List JVal → Bool
  | [] => true
  | x :: xs => coercible x && coercibleArr xs

/-- `coercible` over the entries of a dict. -/
def coercibleObj : List (String × JVal) → Bool
  | [] => true
  | (k, v) :: rest =>
    (if targetKeys.contains k && isIntLike v then (pyFloatReal v).isSome
     else coercible v) && coercibleObj rest

end

mutual

theorem floatifyReal_total : (v : JVal) → coercible v = true →
    ∃ y, floatifyReal v = some y
  | JVal.jnull, _ => ⟨JVal.jnull, rfl⟩
  | JVal.jbool b, _ => ⟨JVal.jbool b, rfl⟩
  | JVal.jint n, _ => ⟨JVal.jint n, rfl⟩
  | JVal.jfloat q, _ => ⟨JVal.jfloat q, rfl⟩
  | JVal.jstr s, _ => ⟨JVal.jstr s, rfl⟩
  | JVal.jarr xs, h => by
    obtain ⟨ys, hys⟩ := floatifyRealArr_total xs h
    exact ⟨JVal.jarr ys, by
      show Option.map JVal.jarr (floatifyRealArr xs) = _
      rw [hys]
      rfl⟩
  | JVal.jobj es, h => by
    obtain ⟨es2, hes⟩ := floatifyRealObj_total es h
    exact ⟨JVal.jobj es2, by
      show Option.map JVal.jobj (floatifyRealObj es) = _
      rw [hes]
      rfl⟩

theorem floatifyRealArr_total : (xs : List JVal) → coercibleArr xs = true →
    ∃ ys, floatifyRealArr xs = some ys
  | [], _ => ⟨[], rfl⟩
  | x :: xs, h => by
    obtain ⟨y, hy⟩ := floatifyReal_total x (Bool.and_elim_left h)
    obtain ⟨ys, hys⟩ := floatifyRealArr_total xs (Bool.and_elim_right h)
    refine ⟨y :: ys, ?_⟩
    unfold floatifyRealArr
    rw [hy, hys]

theorem floatifyRealObj_total : (es : List (String × JVal)) →
    coercibleObj es = true → ∃ es2, floatifyRealObj es = some es2
  | [], _ => ⟨[], rfl⟩
  | (k, v) :: rest, h => by
    obtain ⟨es2, hes⟩ := floatifyRealObj_total rest (Bool.and_elim_right h)
    by_cases hg : (targetKeys.contains k && isIntLike v) = true
    · have h1 : (pyFloatReal v).isSome = true := by
        have h0 := Bool.and_elim_left h
        rwa [if_pos hg] at h0
      obtain ⟨y, hy⟩ := Option.isSome_iff_exists.mp h1
      refine ⟨(k, y) :: es2, ?_⟩
      unfold floatifyRealObj
      rw [if_pos hg, hy, hes]
    · have h0 : coercible v = true := by
        have h0 := Bool.and_elim_left h
        rwa [if_neg hg] at h0
      obtain ⟨y, hy⟩ := floatifyReal_total v h0
      refine ⟨(k, y) :: es2, ?_⟩
      unfold floatifyRealObj
      rw [if_neg hg, hy, hes]

end

set_option maxRecDepth 100000 in
/-- C10 counterexample: the claim says the transform raises no error on
any finite JSON value, but on `{"w": 10^400}` the coercion calls
`float(10^400)`, which raises `OverflowError` (the integer exceeds the
double range), aborting the transform. -/
theorem C10_counterexample :
    floatifyReal (JVal.jobj [("w", JVal.jint (Int.ofNat (10 ^ 400)))]) =
      none := by
  rfl

/-- C10 (amended): the transform terminates on every finite JSON value —
each recursive call is on a strict subterm, which is what lets it be
modelled by the structurally recursive `floatifyReal` — but it does not
run error-free on all of them: `float()` raises `OverflowError` on a
target-keyed integer beyond the double range.  On every document whose
target-keyed int-like values all convert (`coercible`), the transform
completes and returns a result. -/
theorem C10_floatify_total_when_coercible (d : JVal)
    (h : coercible d = true) : ∃ d2, floatifyReal d = some d2 :=
  floatifyReal_total d h

/-- C10 witness: the nested document `{"layers": [{"st": 5}]}` is
coercible, and the faithful transform completes on it. -/
theorem C10_floatify_total_when_coercible_witness :
    ∃ d2, floatifyReal (JVal.jobj [("layers", JVal.jarr
      [JVal.jobj [("st", JVal.jint 5)]])]) = some d2 :=
  C10_floatify_total_when_coercible
    (JVal.jobj [("layers", JVal.jarr [JVal.jobj [("st", JVal.jint 5)]])])
    (by decide)
